import Mathlib

/-!
# ActivityPass — verification of the eligibility/scheduling core

Shallow embedding of the ActivityPass backend's eligibility-evaluation and
course-schedule resolution logic, together with the account/term validators
from `backend/accounts` and the activity-application view from
`backend/activities/views.py`.

Dates are modelled as Nat day numbers (days since civil 0000-03-01, via the
standard civil-calendar day-count algorithm); datetimes as Nat minutes
(dayNumber * 1440 + minuteOfDay).  Weekday numbering follows Python's
`date.weekday()`: 0 = Monday .. 6 = Sunday.
-/

/-- Day number of the civil date y-m-d, counted from 0000-03-01
(standard era/year-of-era civil-calendar algorithm, valid for y ≥ 1). -/
def daysFromCivil (y m d : Nat) : Nat :=
  let y2 := if m ≤ 2 then y - 1 else y
  let era := y2 / 400
  let yoe := y2 - era * 400
  let mp := (m + 9) % 12
  let doy := (153 * mp + 2) / 5 + d - 1
  let doe := yoe * 365 + yoe / 4 - yoe / 100 + doy
  era * 146097 + doe

/-- Weekday of a day number, Python convention: 0 = Monday .. 6 = Sunday. -/
def weekday (dayNum : Nat) : Nat := (dayNum + 2) % 7

/-- Minutes-since-epoch datetime for y-m-d hh:mm. -/
def datetimeMinutes (y m d hh mm : Nat) : Nat :=
  daysFromCivil y m d * 1440 + hh * 60 + mm

/-- Participation record (`activities.models.Participation`): links a student
to an activity with a status string ("pending"/"approved"/"rejected"). -/
structure Participation where
  student : Nat
  activity : Nat
  status : String
deriving DecidableEq

/-- Activity record: id plus its scheduled datetime window (in minutes). -/
structure Activity where
  id : Nat
  start_datetime : Nat
  end_datetime : Nat
deriving DecidableEq

/-- Course record (`accounts.models.Course`): recurring weekly meeting
pattern — day of week (1 = Monday .. 7 = Sunday), period indices (1-13) and
active week numbers. -/
structure Course where
  day_of_week : Nat
  periods : List Nat
  week_pattern : List Nat
deriving DecidableEq

/-- `StudentProfile.activities_participated` (accounts/models.py): the count
of the student's Participation records with status "approved". -/
def activities_participated (parts : List Participation) (student : Nat) : Nat :=
  (parts.filter fun p => p.student == student && p.status == "approved").length

/-- `StudentProfile.remaining_activity_slots` (accounts/models.py):
`max(0, 7 - activities_participated)` over Python integers. -/
def remaining_activity_slots (parts : List Participation) (student : Nat) : Int :=
  max 0 (7 - (activities_participated parts student : Int))

/-- Sort ascending and remove duplicates — Python's `sorted(set(xs))`. -/
def sortedUnique {α : Type} [LinearOrder α] [DecidableEq α] (l : List α) : List α :=
  List.insertionSort (fun a b => a ≤ b) l.dedup

/-- Modelled from the spec: the fatal error kinds of the Calendar Resolver
(the resolver module itself is not part of the provided sources; only its
callers are). -/
inductive ResolveError where
  | invalidAnchor
  | invalidPeriod
deriving DecidableEq

/-- Modelled from the spec: the static 13-entry period-to-clock-time table
(minutes of day).  The spec pins period 1 = 08:00-08:40 and
period 13 = 20:30-21:10 with lunch/dinner gaps encoded in the table;
intermediate entries are representative.  Indices outside 1-13 have no entry. -/
def periodClock (p : Nat) : Option (Nat × Nat) :=
  if p = 1 then some (480, 520)
  else if p = 2 then some (530, 570)
  else if p = 3 then some (590, 630)
  else if p = 4 then some (640, 680)
  else if p = 5 then some (690, 730)
  else if p = 6 then some (840, 880)
  else if p = 7 then some (890, 930)
  else if p = 8 then some (950, 990)
  else if p = 9 then some (1000, 1040)
  else if p = 10 then some (1050, 1090)
  else if p = 11 then some (1140, 1180)
  else if p = 12 then some (1185, 1225)
  else if p = 13 then some (1230, 1270)
  else none

/-- Structural-recursion `mapM` for `Except` (explicit, for easy reasoning). -/
def mapME {α β ε : Type} (f : α → Except ε β) : List α → Except ε (List β)
  | [] => Except.ok []
  | a :: as =>
    match f a with
    | Except.error e => Except.error e
    | Except.ok b =>
      match mapME f as with
      | Except.error e => Except.error e
      | Except.ok bs => Except.ok (b :: bs)

/-- Modelled from the spec: resolve one period on a given meeting day
(day number × 1440 = midnight in minutes) via the period table;
a period index with no table entry is `InvalidPeriodError`. -/
def resolvePeriod (dayMinutes : Nat) (p : Nat) : Except ResolveError (Nat × Nat) :=
  match periodClock p with
  | none => Except.error ResolveError.invalidPeriod
  | some se => Except.ok (dayMinutes + se.1, dayMinutes + se.2)

/-- Modelled from the spec: the meeting date of week `w`:
`anchor + (w-1)*7 days + (day_of_week-1) days`. -/
def meetingDay (anchor day_of_week w : Nat) : Nat :=
  anchor + (w - 1) * 7 + (day_of_week - 1)

/-- Modelled from the spec: all intervals of one active week, in ascending
period order. -/
def resolveWeek (anchor day_of_week : Nat) (periods : List Nat) (w : Nat) :
    Except ResolveError (List (Nat × Nat)) :=
  mapME (resolvePeriod (meetingDay anchor day_of_week w * 1440)) periods

/-- Modelled from the spec: the Calendar Resolver (its module is absent from
the provided sources).  Fails with `InvalidAnchorError` unless the term
anchor is a Monday; sorts week and period sets ascending, then emits one
interval per (active week × period) in (week, period) order; a period index
outside the table is `InvalidPeriodError`; empty week or period sets give
empty output. -/
def resolve (course : Course) (anchor : Nat) : Except ResolveError (List (Nat × Nat)) :=
  if weekday anchor = 0 then
    match mapME (resolveWeek anchor course.day_of_week (sortedUnique course.periods))
        (sortedUnique course.week_pattern) with
    | Except.error e => Except.error e
    | Except.ok ls => Except.ok ls.flatten
  else Except.error ResolveError.invalidAnchor

/-- Modelled from the spec: half-open interval overlap —
`candidate.start < interval.end AND interval.start < candidate.end`. -/
def overlaps (candidate interval : Nat × Nat) : Bool :=
  decide (candidate.1 < interval.2) && decide (interval.1 < candidate.2)

/-- Modelled from the spec: the Conflict Detector — true iff some interval
overlaps the candidate window. -/
def has_conflict (intervals : List (Nat × Nat)) (candidate : Nat × Nat) : Bool :=
  intervals.any fun interval => overlaps candidate interval

/-- The fixed annual participation cap (a policy constant). -/
def PARTICIPATION_CAP : Nat := 7

/-- Verdict of the Eligibility Evaluator. -/
structure EvalResult where
  eligible : Bool
  reasons : List String
deriving DecidableEq

/-- Modelled from the spec: the Eligibility Evaluator
(`activities.eligibility.evaluate_eligibility`; its module is absent from the
provided sources).  Runs both the participation-cap check and the
schedule-conflict check, appending one reason string per failed check;
eligible iff no reason was appended. -/
def evaluate_eligibility (approvedCount : Nat) (intervals : List (Nat × Nat))
    (window : Nat × Nat) : EvalResult :=
  let capReasons := if PARTICIPATION_CAP ≤ approvedCount
    then ["participation limit reached"] else []
  let conflictReasons := if has_conflict intervals window
    then ["schedule conflict with enrolled course"] else []
  let reasons := capReasons ++ conflictReasons
  { eligible := reasons.isEmpty, reasons := reasons }

/-- Database state visible to the activity views: participation records,
course enrollments (student ↦ course) and the anchor Monday of the relevant
term. -/
structure DB where
  participations : List Participation
  enrollments : List (Nat × Course)
  first_week_monday : Nat
deriving DecidableEq

/-- The courses a student is enrolled in. -/
def studentCourses (db : DB) (student : Nat) : List Course :=
  (db.enrollments.filter fun e => e.1 == student).map Prod.snd

/-- Modelled from the spec: all resolved intervals of the student's enrolled
courses for the relevant term (resolver errors propagate as fatal). -/
def studentIntervals (db : DB) (student : Nat) : Except ResolveError (List (Nat × Nat)) :=
  match mapME (fun c => resolve c db.first_week_monday) (studentCourses db student) with
  | Except.error e => Except.error e
  | Except.ok ls => Except.ok ls.flatten

/-- Modelled from the spec: `evaluate_eligibility(student_profile, activity)`
as called by the views — cap check over the student's approved participation
count, conflict check over the student's resolved course intervals. -/
def evaluateDB (db : DB) (student : Nat) (act : Activity) : Except ResolveError EvalResult :=
  match studentIntervals db student with
  | Except.error e => Except.error e
  | Except.ok intervals =>
    Except.ok (evaluate_eligibility (activities_participated db.participations student)
      intervals (act.start_datetime, act.end_datetime))

/-- Does a Participation record exist for (student, activity), regardless of
status?  (The lookup key of `Participation.objects.get_or_create`.) -/
def hasParticipation (db : DB) (student : Nat) (activityId : Nat) : Bool :=
  db.participations.any fun p => p.student == student && p.activity == activityId

/-- The possible responses of `ActivityViewSet.apply` (activities/views.py)
for a requester with a student profile. -/
inductive ApplyResponse where
  | fatal (e : ResolveError)
  | notEligible (reasons : List String)
  | alreadyApplied
  | created (p : Participation)
deriving DecidableEq

/-- `ActivityViewSet.apply` (activities/views.py): evaluate eligibility; if
not eligible respond 400 with the reasons; otherwise `get_or_create` the
Participation — if it already existed respond 400 "Already applied.",
else the new record (status "pending") is stored and returned with 201. -/
def applyAction (db : DB) (student : Nat) (act : Activity) : ApplyResponse × DB :=
  match evaluateDB db student act with
  | Except.error e => (ApplyResponse.fatal e, db)
  | Except.ok elig =>
    if elig.eligible then
      if hasParticipation db student act.id then
        (ApplyResponse.alreadyApplied, db)
      else
        let p : Participation := ⟨student, act.id, "pending"⟩
        (ApplyResponse.created p,
         { db with participations := db.participations ++ [p] })
    else (ApplyResponse.notEligible elig.reasons, db)

/-- `eligibility_check` (activities/views.py): the standalone read endpoint —
returns the evaluation verdict and leaves the store untouched. -/
def eligibility_check (db : DB) (student : Nat) (act : Activity) :
    Except ResolveError EvalResult × DB :=
  (evaluateDB db student act, db)

/-- `CourseSerializer.validate_periods` (accounts/serializers.py), on a list
of integers: every entry must lie in 1..13, else a ValidationError; the
cleaned value is `sorted(set(cleaned))`. -/
def cleanPeriods : List Int → Except String (List Int)
  | [] => Except.ok []
  | p :: ps =>
    if 1 ≤ p ∧ p ≤ 13 then
      match cleanPeriods ps with
      | Except.error e => Except.error e
      | Except.ok rest => Except.ok (p :: rest)
    else Except.error "Period numbers must be between 1 and 13"

/-- `CourseSerializer.validate_periods` (accounts/serializers.py): validate
all entries, then sort ascending and deduplicate. -/
def validate_periods (value : List Int) : Except String (List Int) :=
  match cleanPeriods value with
  | Except.error e => Except.error e
  | Except.ok cleaned => Except.ok (sortedUnique cleaned)

/-- AcademicTerm record: primary key, term identifier, anchor Monday. -/
structure AcademicTerm where
  pk : Nat
  term : String
  first_week_monday : Nat
deriving DecidableEq

/-- `AcademicTermSerializer.validate` (accounts/serializers.py): when the
submitted attrs contain both `term` and `first_week_monday`, reject the
anchor date if some other record (excluding the updated instance itself)
already has it; otherwise accept. -/
def acadTermValidate (existing : List AcademicTerm) (inst : Option Nat)
    (termAttr : Option String) (fwmAttr : Option Nat) : Except String Unit :=
  match termAttr, fwmAttr with
  | some _, some fwm =>
    let clash := existing.filter fun t =>
      t.first_week_monday == fwm &&
        (match inst with
         | some pk => t.pk != pk
         | none => true)
    match clash with
    | [] => Except.ok ()
    | t :: _ => Except.error ("This date is already assigned to term: " ++ t.term)
  | _, _ => Except.ok ()

/-! ## Concrete fixtures -/

/-- Seven approved participations of student 0 (activities 1..7). -/
def sevenApproved : List Participation :=
  [⟨0, 1, "approved"⟩, ⟨0, 2, "approved"⟩, ⟨0, 3, "approved"⟩, ⟨0, 4, "approved"⟩,
   ⟨0, 5, "approved"⟩, ⟨0, 6, "approved"⟩, ⟨0, 7, "approved"⟩]

/-- Eight approved participations of student 0 (activities 1..8). -/
def eightApproved : List Participation :=
  sevenApproved ++ [⟨0, 8, "approved"⟩]

/-- A store where student 0 is at the cap and already holds a Participation
for activity 7. -/
def dupDB : DB := ⟨sevenApproved, [], daysFromCivil 2024 9 2⟩

/-- Activity 7, scheduled 2024-10-01 18:00-19:00. -/
def dupActivity : Activity :=
  ⟨7, datetimeMinutes 2024 10 1 18 0, datetimeMinutes 2024 10 1 19 0⟩

/-- A store where student 0 has one pending Participation for activity 7 and
is otherwise unconstrained. -/
def pendingDB : DB := ⟨[⟨0, 7, "pending"⟩], [], daysFromCivil 2024 9 2⟩

/-- Term record 1, anchored 2024-09-02. -/
def termA : AcademicTerm := ⟨1, "2024-2025-1", daysFromCivil 2024 9 2⟩

/-- Term record 2, anchored 2025-02-24. -/
def termB : AcademicTerm := ⟨2, "2024-2025-2", daysFromCivil 2025 2 24⟩

/-! ## Helper lemmas -/

theorem mem_sortedUnique {α : Type} [LinearOrder α] [DecidableEq α] {l : List α} {a : α} :
    a ∈ sortedUnique l ↔ a ∈ l := by
  unfold sortedUnique
  rw [List.mem_insertionSort, List.mem_dedup]

theorem sortedUnique_ne_nil {α : Type} [LinearOrder α] [DecidableEq α] {l : List α}
    (h : l ≠ []) : sortedUnique l ≠ [] := by
  obtain ⟨a, ha⟩ := List.exists_mem_of_ne_nil l h
  intro hcon
  have : a ∈ sortedUnique l := mem_sortedUnique.mpr ha
  rw [hcon] at this
  exact List.not_mem_nil a this

theorem periodClock_none {p : Nat} (h : p < 1 ∨ 13 < p) : periodClock p = none := by
  unfold periodClock
  repeat rw [if_neg (by omega)]

theorem mapME_error_resolvePeriod {d : Nat} {ps : List Nat} {p : Nat}
    (hp : p ∈ ps) (h : periodClock p = none) :
    mapME (resolvePeriod d) ps = Except.error ResolveError.invalidPeriod := by
  induction ps with
  | nil => exact absurd hp (List.not_mem_nil p)
  | cons q qs ih =>
    rcases List.mem_cons.mp hp with hq | hq
    · subst hq
      simp [mapME, resolvePeriod, h]
    · simp only [mapME]
      cases hfq : resolvePeriod d q with
      | error e =>
        unfold resolvePeriod at hfq
        cases hclock : periodClock q with
        | none => simp [hclock] at hfq; simp [hfq]
        | some se => simp [hclock] at hfq
      | ok b => rw [ih hq]

theorem mapME_ok_of_map {α β ε : Type} {f : α → Except ε β} {g : α → β} {l : List α}
    (h : ∀ a ∈ l, f a = Except.ok (g a)) :
    mapME f l = Except.ok (l.map g) := by
  induction l with
  | nil => rfl
  | cons a as ih =>
    simp only [mapME, h a (List.mem_cons_self a as)]
    rw [ih fun b hb => h b (List.mem_cons_of_mem a hb)]
    rfl

theorem flatten_map_nil {α β : Type} (l : List α) :
    (l.map fun _ => ([] : List β)).flatten = [] := by
  induction l with
  | nil => rfl
  | cons a as ih => simp [ih]

/-! ## Claim theorems -/

/-- C1: `has_conflict` returns true iff some interval satisfies
`candidate.start < interval.end AND interval.start < candidate.end`;
touching intervals [09:00,10:00) and [10:00,11:00) do not conflict, while
[09:00,10:01) and [10:00,11:00) do. -/
theorem has_conflict_spec :
    (∀ (intervals : List (Nat × Nat)) (candidate : Nat × Nat),
      has_conflict intervals candidate = true ↔
        ∃ interval ∈ intervals,
          candidate.1 < interval.2 ∧ interval.1 < candidate.2) ∧
    has_conflict [(540, 600)] (600, 660) = false ∧
    has_conflict [(540, 601)] (600, 660) = true := by
  refine ⟨fun intervals candidate => ?_, rfl, rfl⟩
  simp [has_conflict, overlaps, List.any_eq_true]

/-- Witness for C1: the conflict criterion applied at a concrete input. -/
theorem has_conflict_spec_witness :
    has_conflict [(540, 601)] (600, 660) = true :=
  (has_conflict_spec.1 [(540, 601)] (600, 660)).mpr
    ⟨(540, 601), by simp, by omega, by omega⟩

/-- C5: resolving any course against a non-Monday anchor fails with
`InvalidAnchorError`. -/
theorem resolve_invalidAnchor (course : Course) (anchor : Nat)
    (h : weekday anchor ≠ 0) :
    resolve course anchor = Except.error ResolveError.invalidAnchor := by
  unfold resolve
  rw [if_neg h]

/-- Witness for C5: 2024-09-03 is a Tuesday, so resolution fails. -/
theorem resolve_invalidAnchor_witness :
    resolve ⟨3, [1], [2]⟩ (daysFromCivil 2024 9 3)
      = Except.error ResolveError.invalidAnchor :=
  resolve_invalidAnchor ⟨3, [1], [2]⟩ (daysFromCivil 2024 9 3) (by decide)

/-- C8: the eligibility-check endpoint is a pure read: it leaves the store
unchanged, a second call on the post-state returns the same verdict, and the
verdict is a function of the inputs alone. -/
theorem eligibility_check_pure (db : DB) (student : Nat) (act : Activity) :
    (eligibility_check db student act).2 = db ∧
    eligibility_check ((eligibility_check db student act).2) student act
      = eligibility_check db student act ∧
    (eligibility_check db student act).1 = evaluateDB db student act :=
  ⟨rfl, rfl, rfl⟩

/-- C10: `remaining_activity_slots` equals `max 0 (7 - approvedCount)`, is
never negative, and is 0 whenever the approved count exceeds 7. -/
theorem remaining_slots_spec (parts : List Participation) (student : Nat) :
    remaining_activity_slots parts student
        = max 0 (7 - (activities_participated parts student : Int)) ∧
    0 ≤ remaining_activity_slots parts student ∧
    (7 < activities_participated parts student →
      remaining_activity_slots parts student = 0) := by
  refine ⟨rfl, le_max_left 0 _, fun h => ?_⟩
  unfold remaining_activity_slots
  have hle : (7 : Int) - (activities_participated parts student : Int) ≤ 0 := by
    omega
  exact max_eq_left hle

/-- Witness for C10: with 8 approved participations the remaining-slot count
is 0, not negative. -/
theorem remaining_slots_witness :
    remaining_activity_slots eightApproved 0 = 0 :=
  (remaining_slots_spec eightApproved 0).2.2 (by decide)

/-- C2: with a Monday anchor and valid periods, the resolver emits, per
active week `w` and period `p`, the interval on day
`anchor + (w-1)*7 + (day_of_week-1)` at the period's table clock times; in
particular a term anchored Monday 2024-09-02 with day_of_week=3, weeks={2},
periods={1} resolves to exactly 2024-09-11T08:00 – 2024-09-11T08:40. -/
theorem resolve_formula_and_example :
    (∀ (course : Course) (anchor : Nat),
      weekday anchor = 0 →
      (∀ p ∈ course.periods, (periodClock p).isSome = true) →
      resolve course anchor = Except.ok
        (((sortedUnique course.week_pattern).map fun w =>
            (sortedUnique course.periods).map fun p =>
              ((anchor + (w - 1) * 7 + (course.day_of_week - 1)) * 1440
                  + ((periodClock p).getD (0, 0)).1,
               (anchor + (w - 1) * 7 + (course.day_of_week - 1)) * 1440
                  + ((periodClock p).getD (0, 0)).2)).flatten)) ∧
    resolve ⟨3, [1], [2]⟩ (daysFromCivil 2024 9 2)
      = Except.ok [(datetimeMinutes 2024 9 11 8 0, datetimeMinutes 2024 9 11 8 40)] := by
  constructor
  · intro course anchor h hvalid
    unfold resolve
    rw [if_pos h]
    have hweek : ∀ w ∈ sortedUnique course.week_pattern,
        resolveWeek anchor course.day_of_week (sortedUnique course.periods) w
          = Except.ok ((sortedUnique course.periods).map fun p =>
              ((anchor + (w - 1) * 7 + (course.day_of_week - 1)) * 1440
                  + ((periodClock p).getD (0, 0)).1,
               (anchor + (w - 1) * 7 + (course.day_of_week - 1)) * 1440
                  + ((periodClock p).getD (0, 0)).2)) := by
      intro w _
      unfold resolveWeek
      apply mapME_ok_of_map
      intro p hp
      have hsome := hvalid p (mem_sortedUnique.mp hp)
      cases hc : periodClock p with
      | none => rw [hc] at hsome; simp at hsome
      | some se =>
        simp only [resolvePeriod, hc, meetingDay, Option.getD_some]
    rw [mapME_ok_of_map hweek]
  · rfl

/-- Witness for C2: the general formula applied to the concrete slot of the
spec's example. -/
theorem resolve_formula_witness :
    resolve ⟨3, [1], [2]⟩ (daysFromCivil 2024 9 2)
      = Except.ok [(datetimeMinutes 2024 9 11 8 0, datetimeMinutes 2024 9 11 8 40)] := by
  have h := resolve_formula_and_example.1 ⟨3, [1], [2]⟩ (daysFromCivil 2024 9 2)
    (by decide) (by decide)
  rw [h]
  rfl

/-- C3: with the approved-participation count (as computed by
`activities_participated`) at least 7, evaluation is ineligible with reason
"participation limit reached", whatever the schedule; the cap constant is 7. -/
theorem cap_enforced (parts : List Participation) (student : Nat)
    (intervals : List (Nat × Nat)) (window : Nat × Nat)
    (h : 7 ≤ activities_participated parts student) :
    PARTICIPATION_CAP = 7 ∧
    (evaluate_eligibility (activities_participated parts student)
      intervals window).eligible = false ∧
    "participation limit reached" ∈
      (evaluate_eligibility (activities_participated parts student)
        intervals window).reasons := by
  refine ⟨rfl, ?_, ?_⟩ <;>
  · simp only [evaluate_eligibility, PARTICIPATION_CAP]
    rw [if_pos h]
    cases hconf : has_conflict intervals window <;> simp [hconf]

/-- Witness for C3: a student with exactly 7 approved participations is
ineligible even with no course intervals at all. -/
theorem cap_enforced_witness :
    (evaluate_eligibility (activities_participated sevenApproved 0)
      [] (0, 0)).eligible = false :=
  (cap_enforced sevenApproved 0 [] (0, 0) (by decide)).2.1

/-- C4: both checks run without short-circuiting — at the cap and with a
conflict the result carries both reason strings — and eligibility holds
exactly when the reasons list is empty. -/
theorem both_reasons (approvedCount : Nat) (intervals : List (Nat × Nat))
    (window : Nat × Nat) :
    (7 ≤ approvedCount → has_conflict intervals window = true →
      (evaluate_eligibility approvedCount intervals window).reasons =
        ["participation limit reached", "schedule conflict with enrolled course"]) ∧
    ((evaluate_eligibility approvedCount intervals window).eligible = true ↔
      (evaluate_eligibility approvedCount intervals window).reasons = []) := by
  constructor
  · intro h hc
    simp [evaluate_eligibility, PARTICIPATION_CAP, h, hc]
  · simp only [evaluate_eligibility]
    exact List.isEmpty_iff

/-- Witness for C4: at the cap with a conflicting interval, both reasons are
returned in one pass. -/
theorem both_reasons_witness :
    (evaluate_eligibility 7 [(0, 10)] (5, 6)).reasons =
      ["participation limit reached", "schedule conflict with enrolled course"] :=
  (both_reasons 7 [(0, 10)] (5, 6)).1 (by decide) (by decide)

theorem cleanPeriods_error {value : List Int} {p : Int}
    (hp : p ∈ value) (hrange : p < 1 ∨ 13 < p) :
    cleanPeriods value = Except.error "Period numbers must be between 1 and 13" := by
  induction value with
  | nil => exact absurd hp (List.not_mem_nil p)
  | cons q qs ih =>
    rcases List.mem_cons.mp hp with h | h
    · subst h
      unfold cleanPeriods
      rw [if_neg (by omega)]
    · unfold cleanPeriods
      by_cases hq : 1 ≤ q ∧ q ≤ 13
      · rw [if_pos hq, ih h]
      · rw [if_neg hq]

/-- C6: a period index outside 1-13 makes resolution fail with
`InvalidPeriodError` (given a Monday anchor and a nonempty week set), while
an empty week set or an empty period set yields empty output, not an error;
the serializer likewise rejects out-of-range periods. -/
theorem period_range :
    (∀ (course : Course) (anchor : Nat) (p : Nat),
      weekday anchor = 0 → course.week_pattern ≠ [] →
      p ∈ course.periods → (p < 1 ∨ 13 < p) →
      resolve course anchor = Except.error ResolveError.invalidPeriod) ∧
    (∀ (course : Course) (anchor : Nat),
      weekday anchor = 0 →
      (course.week_pattern = [] ∨ course.periods = []) →
      resolve course anchor = Except.ok []) ∧
    (∀ (value : List Int) (p : Int),
      p ∈ value → (p < 1 ∨ 13 < p) →
      validate_periods value
        = Except.error "Period numbers must be between 1 and 13") := by
  refine ⟨?_, ?_, ?_⟩
  · intro course anchor p h hw hp hrange
    unfold resolve
    rw [if_pos h]
    obtain ⟨w, ws, hws⟩ := List.exists_cons_of_ne_nil (sortedUnique_ne_nil hw)
    rw [hws]
    have hbad : resolveWeek anchor course.day_of_week (sortedUnique course.periods) w
        = Except.error ResolveError.invalidPeriod := by
      unfold resolveWeek
      exact mapME_error_resolvePeriod (mem_sortedUnique.mpr hp) (periodClock_none hrange)
    simp [mapME, hbad]
  · intro course anchor h hcase
    unfold resolve
    rw [if_pos h]
    rcases hcase with hw | hp
    · rw [hw]
      rfl
    · rw [hp]
      have hall : ∀ w ∈ sortedUnique course.week_pattern,
          resolveWeek anchor course.day_of_week (sortedUnique ([] : List Nat)) w
            = Except.ok ((fun _ => ([] : List (Nat × Nat))) w) := fun w _ => rfl
      rw [mapME_ok_of_map hall]
      simp [flatten_map_nil]
  · intro value p hp hrange
    unfold validate_periods
    rw [cleanPeriods_error hp hrange]

/-- Witness for C6: period 14 is fatal when iterated, empty period sets are
not, and the serializer rejects 14 as well. -/
theorem period_range_witness :
    resolve ⟨1, [14], [1]⟩ (daysFromCivil 2024 9 2)
      = Except.error ResolveError.invalidPeriod ∧
    resolve ⟨1, [14], []⟩ (daysFromCivil 2024 9 2) = Except.ok [] ∧
    validate_periods [14] = Except.error "Period numbers must be between 1 and 13" :=
  ⟨period_range.1 ⟨1, [14], [1]⟩ (daysFromCivil 2024 9 2) 14
      (by decide) (by decide) (by decide) (by decide),
   period_range.2.1 ⟨1, [14], []⟩ (daysFromCivil 2024 9 2) (by decide) (Or.inl rfl),
   period_range.2.2 [14] 14 (by decide) (by decide)⟩

theorem evaluate_reasons_mem (approvedCount : Nat) (intervals : List (Nat × Nat))
    (window : Nat × Nat) (s : String)
    (hs : s ∈ (evaluate_eligibility approvedCount intervals window).reasons) :
    s = "participation limit reached" ∨
    s = "schedule conflict with enrolled course" := by
  simp only [evaluate_eligibility, List.mem_append] at hs
  rcases hs with h | h
  · left
    split at h
    · exact List.mem_singleton.mp h
    · exact absurd h (List.not_mem_nil s)
  · right
    split at h
    · exact List.mem_singleton.mp h
    · exact absurd h (List.not_mem_nil s)

/-- C7 counterexample: for student 0 at the cap with an existing (approved)
Participation for activity 7, the apply action rejects with "Not eligible",
not with "Already applied." — the duplicate error path is only reached when
the eligibility evaluation passes. -/
theorem apply_duplicate_counterexample :
    hasParticipation dupDB 0 dupActivity.id = true ∧
    (applyAction dupDB 0 dupActivity).1
      = ApplyResponse.notEligible ["participation limit reached"] ∧
    (applyAction dupDB 0 dupActivity).1 ≠ ApplyResponse.alreadyApplied := by
  refine ⟨rfl, rfl, ?_⟩
  intro hcon
  rw [show (applyAction dupDB 0 dupActivity).1
      = ApplyResponse.notEligible ["participation limit reached"] from rfl] at hcon
  cases hcon

/-- C7 (amended): when a Participation already exists for (student,
activity), the apply action never creates a record; if the eligibility
evaluation passes it rejects with "Already applied."; and the evaluator's
reasons never mention the duplicate — they are drawn from the cap/conflict
reasons only. -/
theorem apply_duplicate (db : DB) (student : Nat) (act : Activity)
    (h : hasParticipation db student act.id = true) :
    (applyAction db student act).2 = db ∧
    (∀ r, evaluateDB db student act = Except.ok r → r.eligible = true →
      (applyAction db student act).1 = ApplyResponse.alreadyApplied) ∧
    (∀ r s, evaluateDB db student act = Except.ok r → s ∈ r.reasons →
      s = "participation limit reached" ∨
      s = "schedule conflict with enrolled course") := by
  refine ⟨?_, ?_, ?_⟩
  · cases hev : evaluateDB db student act with
    | error e => simp [applyAction, hev]
    | ok elig =>
      cases helig : elig.eligible <;> simp [applyAction, hev, helig, h]
  · intro r hr hre
    simp [applyAction, hr, hre, h]
  · intro r s hr hs
    unfold evaluateDB at hr
    cases hsi : studentIntervals db student with
    | error e => rw [hsi] at hr; cases hr
    | ok intervals =>
      rw [hsi] at hr
      have heq := Except.ok.inj hr
      rw [← heq] at hs
      exact evaluate_reasons_mem _ _ _ s hs

/-- Witness for C7 (amended): a pending duplicate with an otherwise eligible
student yields "Already applied." and an unchanged store. -/
theorem apply_duplicate_witness :
    (applyAction pendingDB 0 dupActivity).2 = pendingDB ∧
    (applyAction pendingDB 0 dupActivity).1 = ApplyResponse.alreadyApplied :=
  ⟨(apply_duplicate pendingDB 0 dupActivity rfl).1,
   (apply_duplicate pendingDB 0 dupActivity rfl).2.1 ⟨true, []⟩ rfl rfl⟩

/-- C9 counterexample: a partial update of term record 2 that submits only a
new anchor date — 2024-09-02, already assigned to term record 1 — passes
validation, because the duplicate check only runs when both `term` and
`first_week_monday` are present in the submitted attrs. -/
theorem term_anchor_counterexample :
    acadTermValidate [termA, termB] (some 2) none (some (daysFromCivil 2024 9 2))
      = Except.ok () ∧
    termA.first_week_monday = daysFromCivil 2024 9 2 ∧
    termA.pk ≠ 2 := by
  refine ⟨rfl, rfl, ?_⟩
  intro hcon
  cases hcon

/-- C9 (amended): when the submitted attrs contain both the term identifier
and the anchor date, validation accepts exactly when no other record holds
that anchor — an anchor already assigned to a different term record is
rejected on create and on (non-partial) update. -/
theorem term_anchor_unique (existing : List AcademicTerm) (inst : Option Nat)
    (t : String) (fwm : Nat) :
    acadTermValidate existing inst (some t) (some fwm) = Except.ok () ↔
      ∀ rec ∈ existing, rec.first_week_monday = fwm → inst = some rec.pk := by
  have key : ∀ (l : List AcademicTerm),
      (match l with
       | [] => Except.ok ()
       | t :: _ =>
         Except.error ("This date is already assigned to term: " ++ t.term)
       : Except String Unit) = Except.ok () ↔ l = [] := by
    intro l
    cases l <;> simp
  have pred_iff : ∀ rec : AcademicTerm,
      ((rec.first_week_monday == fwm &&
        (match inst with | some pk => rec.pk != pk | none => true)) = true ↔
        (rec.first_week_monday = fwm ∧ inst ≠ some rec.pk)) := by
    intro rec
    cases inst with
    | none => simp
    | some pk =>
      simp only [Bool.and_eq_true, beq_iff_eq, bne_iff_ne, Ne, Option.some.injEq]
      constructor
      · rintro ⟨h1, h2⟩
        exact ⟨h1, fun hc => h2 hc.symm⟩
      · rintro ⟨h1, h2⟩
        exact ⟨h1, fun hc => h2 hc.symm⟩
  unfold acadTermValidate
  rw [key, List.filter_eq_nil_iff]
  constructor
  · intro H rec hrec hfwm
    by_contra hne
    exact H rec hrec ((pred_iff rec).mpr ⟨hfwm, hne⟩)
  · intro H rec hrec hpred
    obtain ⟨hfwm, hne⟩ := (pred_iff rec).mp hpred
    exact hne (H rec hrec hfwm)

/-- Witness for C9 (amended): creating a term with a fresh anchor date is
accepted. -/
theorem term_anchor_unique_witness :
    acadTermValidate [termA] none (some "2024-2025-2") (some (daysFromCivil 2025 2 24))
      = Except.ok () :=
  (term_anchor_unique [termA] none "2024-2025-2" (daysFromCivil 2025 2 24)).mpr
    (by decide)
